import Mathlib

/-!
Verification of the dimensional ETL / SCD Type-2 pipeline

Shallow embedding of `week2-sql/scd_examples.py` and
`week2-sql/create_data_warehouse.py`.

Modelling conventions:
* Calendar dates stored as TEXT `'YYYY-MM-DD'` in the database are represented
  by their day number (proleptic Gregorian ordinal, as in Python's
  `date.toordinal`): SQLite compares ISO date strings lexicographically, which
  coincides with the chronological order of day numbers, and
  `datetime - timedelta(days=1)` is subtraction of 1 on day numbers.
  `Date` below is the civil form `(year, month, day)` and `dateToNat` the
  civil-to-ordinal conversion, so concrete dates appearing in the claims can
  be written exactly.
* SQLite integer booleans (`is_current`) are kept as `Nat` values 0/1, as the
  code reads and writes them.
* `REAL` money columns are represented by exact rationals; no claim depends on
  floating-point rounding.
* Autoincrement surrogate keys are modelled by explicit `next_*_key` counters
  on the warehouse state (SQLite assigns `lastrowid = next key` on insert).
-/

/-- A civil calendar date, as parsed from a `'YYYY-MM-DD'` string. -/
structure Date where
  year : Nat
  month : Nat
  day : Nat
deriving DecidableEq, Repr

/-- Gregorian leap-year rule (as implemented by Python's `datetime`). -/
def isLeapYear (y : Nat) : Bool :=
  (y % 4 == 0 && y % 100 != 0) || y % 400 == 0

/-- Number of days in a month of a given year. -/
def daysInMonth (y m : Nat) : Nat :=
  if m == 2 then (if isLeapYear y then 29 else 28)
  else if m == 4 || m == 6 || m == 9 || m == 11 then 30
  else 31

/-- Days in year `y` strictly before month `m`. -/
def daysBeforeMonth (y m : Nat) : Nat :=
  (List.range (m - 1)).foldl (fun acc i => acc + daysInMonth y (i + 1)) 0

/-- Proleptic Gregorian ordinal of a date: `dateToNat ⟨1,1,1⟩ = 1`.
This is exactly Python's `date.toordinal`. -/
def dateToNat (d : Date) : Nat :=
  365 * (d.year - 1)
    + ((d.year - 1) / 4 - (d.year - 1) / 100 + (d.year - 1) / 400)
    + daysBeforeMonth d.year d.month + d.day

/-- The `yyyymmdd` integer date key: `int(x.replace('-', ''))` on the
canonical ISO string. -/
def dateKeyOf (d : Date) : Nat :=
  d.year * 10000 + d.month * 100 + d.day

/-- Python `date.weekday()`: 0 = Monday, ..., 6 = Sunday.
Day 1 (0001-01-01) is a Monday. -/
def weekday (d : Date) : Nat :=
  (dateToNat d + 6) % 7

/-- Successor day in the civil calendar (`datetime + timedelta(days=1)`). -/
def succDay (d : Date) : Date :=
  if d.day < daysInMonth d.year d.month then ⟨d.year, d.month, d.day + 1⟩
  else if d.month < 12 then ⟨d.year, d.month + 1, 1⟩
  else ⟨d.year + 1, 1, 1⟩

/-- Predecessor day in the civil calendar (`datetime - timedelta(days=1)`). -/
def predDay (d : Date) : Date :=
  if 1 < d.day then ⟨d.year, d.month, d.day - 1⟩
  else if 1 < d.month then ⟨d.year, d.month - 1, daysInMonth d.year (d.month - 1)⟩
  else ⟨d.year - 1, 12, 31⟩

/-- Ordinal day within the year (`timetuple().tm_yday`). -/
def dayOfYear (d : Date) : Nat :=
  daysBeforeMonth d.year d.month + d.day

/-- Iterate a function n times. -/
def iterate (f : α → α) : Nat → α → α
  | 0, a => a
  | n + 1, a => iterate f n (f a)

/-- The Thursday of the ISO week containing `d`. -/
def isoThursday (d : Date) : Date :=
  let wd := weekday d
  if wd ≤ 3 then iterate succDay (3 - wd) d else iterate predDay (wd - 3) d

/-- ISO-8601 week number (`date.isocalendar()[1]`): the index of the week of
the Thursday of `d`'s week within the Thursday's year. -/
def isoWeek (d : Date) : Nat :=
  (dayOfYear (isoThursday d) - 1) / 7 + 1

/-- English month name (`strftime('%B')`). -/
def monthName (m : Nat) : String :=
  match m with
  | 1 => "January" | 2 => "February" | 3 => "March" | 4 => "April"
  | 5 => "May" | 6 => "June" | 7 => "July" | 8 => "August"
  | 9 => "September" | 10 => "October" | 11 => "November" | 12 => "December"
  | _ => ""

/-- English day name (`strftime('%A')`), indexed by Python weekday. -/
def dayName (w : Nat) : String :=
  match w with
  | 0 => "Monday" | 1 => "Tuesday" | 2 => "Wednesday" | 3 => "Thursday"
  | 4 => "Friday" | 5 => "Saturday" | 6 => "Sunday"
  | _ => ""

/-- Zero-pad a number to two digits. -/
def pad2 (n : Nat) : String :=
  if n < 10 then "0" ++ toString n else toString n

/-- Zero-pad a number to four digits. -/
def pad4 (n : Nat) : String :=
  if n < 10 then "000" ++ toString n
  else if n < 100 then "00" ++ toString n
  else if n < 1000 then "0" ++ toString n
  else toString n

/-- The ISO `'YYYY-MM-DD'` rendering of a date (`strftime('%Y-%m-%d')`). -/
def dateStr (d : Date) : String :=
  pad4 d.year ++ "-" ++ pad2 d.month ++ "-" ++ pad2 d.day

/-- Day number of the sentinel far-future date `'9999-12-31'`. -/
def maxDateNat : Nat := dateToNat ⟨9999, 12, 31⟩

/-!
Section: Warehouse data model

Row types mirror the columns the Python code reads and writes.
-/

/-- A row of `dim_customer` (Type-2 slowly changing dimension). -/
structure CustomerRow where
  customer_key : Nat
  customer_id : Nat
  first_name : String
  last_name : String
  email : String
  phone : String
  city : String
  state : String
  customer_tier : String
  registration_date : Nat
  valid_from : Nat
  valid_to : Nat
  is_current : Nat
  created_at : String
  updated_at : String
deriving DecidableEq, Repr

/-- A row of `dim_date`, as generated by `load_dim_date`. -/
structure DateRow where
  date_key : Nat
  full_date : String
  year : Nat
  quarter : Nat
  month : Nat
  month_name : String
  week_of_year : Nat
  day_of_year : Nat
  day_of_month : Nat
  day_of_week : Nat
  day_name : String
  is_weekend : Nat
  is_holiday : Nat
  fiscal_year : Nat
  fiscal_quarter : Nat
deriving DecidableEq, Repr

/-- A row of `dim_product` (denormalized with its category). -/
structure ProductRow where
  product_key : Nat
  product_id : Nat
  product_name : String
  category_id : Nat
  category_name : String
  category_description : String
  unit_price : Rat
  is_active : Nat
deriving DecidableEq, Repr

/-- A row of `dim_order_status` (after the `if_exists='replace'` load the
table has exactly the DataFrame's columns). -/
structure StatusRow where
  status_code : String
  status_name : String
  status_description : String
  is_final_state : Nat
deriving DecidableEq, Repr

/-- A row of `dim_payment_method`. -/
structure PaymentMethodRow where
  payment_method_code : String
  payment_method_name : String
  processing_fee_pct : Rat
deriving DecidableEq, Repr

/-- A row of `fact_sales`.  Dimension keys resolved by `how='left'` pandas
merges are nullable (`NaN` written as SQL `NULL`). -/
structure FactRow where
  date_key : Nat
  customer_key : Option Nat
  product_key : Option Nat
  status_key : Option Nat
  payment_method_key : Option Nat
  order_id : Nat
  order_item_id : Nat
  quantity : Nat
  unit_price : Rat
  line_total : Rat
  discount_amount : Rat
  tax_amount : Rat
  net_revenue : Rat
deriving DecidableEq, Repr

/-- The state of `data_warehouse.db`: the six tables of the star schema plus
the autoincrement counters for the surrogate keys the code relies on. -/
structure Warehouse where
  dim_date : List DateRow
  dim_customer : List CustomerRow
  dim_product : List ProductRow
  dim_order_status : List StatusRow
  dim_payment_method : List PaymentMethodRow
  fact_sales : List FactRow
  next_customer_key : Nat
  next_product_key : Nat
deriving DecidableEq, Repr

/-!
Section: Source database model (`sales_analytics.db`, built by `setup_database.py`)
-/

/-- A row of the operational `customers` table. -/
structure SourceCustomer where
  customer_id : Nat
  first_name : String
  last_name : String
  email : String
  phone : String
  city : String
  state : String
  customer_tier : String
  registration_date : Nat
deriving DecidableEq, Repr

/-- A row of the operational `products` table. -/
structure SourceProduct where
  product_id : Nat
  product_name : String
  category_id : Nat
  unit_price : Rat
  is_active : Nat
deriving DecidableEq, Repr

/-- A row of the operational `categories` table. -/
structure SourceCategory where
  category_id : Nat
  category_name : String
  description : String
deriving DecidableEq, Repr

/-- A row of the operational `orders` table (the columns the ETL reads). -/
structure SourceOrder where
  order_id : Nat
  customer_id : Nat
  order_date : Date
  order_status : String
deriving DecidableEq, Repr

/-- A row of the operational `order_items` table. -/
structure SourceOrderItem where
  order_item_id : Nat
  order_id : Nat
  product_id : Nat
  quantity : Nat
  unit_price : Rat
  line_total : Rat
deriving DecidableEq, Repr

/-- The operational source database. -/
structure SourceDB where
  customers : List SourceCustomer
  products : List SourceProduct
  categories : List SourceCategory
  orders : List SourceOrder
  order_items : List SourceOrderItem
deriving DecidableEq, Repr

/-!
Section: SCD Type-2 update (`SCDManager.update_customer_tier`)

The Python method, on a single connection with the default deferred
transaction, executes:
1. `SELECT ... WHERE customer_id = ? AND is_current = 1` and `fetchone()`
   (first row in table order);
2. returns with no statement executed when no row is found or the tier is
   unchanged;
3. otherwise `UPDATE dim_customer SET valid_to = effective_date - 1 day,
   is_current = 0, updated_at = now WHERE customer_key = <found key>`;
4. `INSERT` of a new row copying the other attributes, with the new tier,
   `valid_from = effective_date`, `valid_to = '9999-12-31'`, `is_current = 1`;
5. `commit()`.
-/

/-- The `WHERE customer_id = ? AND is_current = 1` row predicate. -/
def isCurrentFor (cid : Nat) (r : CustomerRow) : Bool :=
  r.customer_id == cid && r.is_current == 1

/-- The closed-out version of the old current row (step 3 above):
`valid_to` becomes the day before the effective date, `is_current` 0. -/
def closeRow (eff : Nat) (now : String) (r : CustomerRow) : CustomerRow :=
  { r with valid_to := eff - 1, is_current := 0, updated_at := now }

/-- The inserted replacement row (step 4 above): all descriptive attributes
copied from the old row, the new tier, `valid_from` = effective date,
`valid_to` = sentinel, `is_current` = 1. -/
def newTierRow (key : Nat) (cur : CustomerRow) (new_tier : String)
    (eff : Nat) (now : String) : CustomerRow :=
  { customer_key := key
    customer_id := cur.customer_id
    first_name := cur.first_name
    last_name := cur.last_name
    email := cur.email
    phone := cur.phone
    city := cur.city
    state := cur.state
    customer_tier := new_tier
    registration_date := cur.registration_date
    valid_from := eff
    valid_to := maxDateNat
    is_current := 1
    created_at := now
    updated_at := now }

/-- The method `SCDManager.update_customer_tier(customer_id, new_tier, effective_date)`.
`now` is the wall-clock timestamp string used for `created_at`/`updated_at`. -/
def update_customer_tier (w : Warehouse) (customer_id : Nat)
    (new_tier : String) (eff : Nat) (now : String) : Warehouse :=
  match w.dim_customer.find? (isCurrentFor customer_id) with
  | none => w
  | some cur =>
    if cur.customer_tier == new_tier then w
    else
      { w with
        dim_customer :=
          (w.dim_customer.map (fun r =>
            if r.customer_key == cur.customer_key then closeRow eff now r
            else r)) ++ [newTierRow w.next_customer_key cur new_tier eff now]
        next_customer_key := w.next_customer_key + 1 }

/-- The state the database has durably committed after
`update_customer_tier` when the `INSERT` of step 4 either succeeds
(`insert_ok = true`) or raises (`insert_ok = false`).  The `UPDATE` of step 3
runs inside the connection's implicit transaction, and `commit()` (line 160)
only executes after a successful insert, so a failed insert leaves nothing
committed. -/
def update_customer_tier_committed (w : Warehouse) (customer_id : Nat)
    (new_tier : String) (eff : Nat) (now : String) (insert_ok : Bool) :
    Warehouse :=
  match w.dim_customer.find? (isCurrentFor customer_id) with
  | none => w
  | some cur =>
    if cur.customer_tier == new_tier then w
    else if insert_ok then update_customer_tier w customer_id new_tier eff now
    else w

/-- One `update_customer_tier` call description: customer id, new tier,
effective date, timestamp. -/
structure TierUpdate where
  customer_id : Nat
  new_tier : String
  eff : Nat
  now : String
deriving DecidableEq, Repr

/-- Apply a sequence of `update_customer_tier` calls. -/
def applyUpdates (w : Warehouse) (ops : List TierUpdate) : Warehouse :=
  ops.foldl (fun s op =>
    update_customer_tier s op.customer_id op.new_tier op.eff op.now) w

/-- The rows of `dim_customer` for one natural key, in table order. -/
def histOf (w : Warehouse) (cid : Nat) : List CustomerRow :=
  w.dim_customer.filter (fun r => r.customer_id == cid)

/-- The current rows for one natural key. -/
def currentRows (w : Warehouse) (cid : Nat) : List CustomerRow :=
  w.dim_customer.filter (isCurrentFor cid)

/-- Surrogate keys are pairwise distinct and below the autoincrement
counter — what SQLite's `INTEGER PRIMARY KEY` guarantees. -/
def KeysOk (w : Warehouse) : Prop :=
  w.dim_customer.Pairwise (fun r r' => r.customer_key ≠ r'.customer_key) ∧
  ∀ r ∈ w.dim_customer, r.customer_key < w.next_customer_key

/-!
Section: Star-schema ETL (`create_data_warehouse.py`)
-/

/-- One row of `dim_date` (`load_dim_date`'s per-day dictionary). -/
def mkDateRow (d : Date) : DateRow :=
  { date_key := dateKeyOf d
    full_date := dateStr d
    year := d.year
    quarter := (d.month - 1) / 3 + 1
    month := d.month
    month_name := monthName d.month
    week_of_year := isoWeek d
    day_of_year := dayOfYear d
    day_of_month := d.day
    day_of_week := weekday d
    day_name := dayName (weekday d)
    is_weekend := if 5 ≤ weekday d then 1 else 0
    is_holiday := 0
    fiscal_year := if 7 ≤ d.month then d.year else d.year - 1
    -- Python `((month - 7) % 12) // 3 + 1`; `(m - 7) mod 12 = (m + 5) mod 12`
    fiscal_quarter := (d.month + 5) % 12 / 3 + 1 }

/-- The `while current <= end` loop of `load_dim_date`, with the iteration
count made explicit. -/
def genDateRowsAux : Nat → Date → List DateRow
  | 0, _ => []
  | n + 1, d => mkDateRow d :: genDateRowsAux n (succDay d)

/-- All dates from `startD` to `endD` inclusive. -/
def genDateRows (startD endD : Date) : List DateRow :=
  genDateRowsAux (dateToNat endD + 1 - dateToNat startD) startD

/-- Loader `load_dim_date` with its default range, including the count guard. -/
def load_dim_date_wh (w : Warehouse) : Warehouse :=
  if 0 < w.dim_date.length then w
  else { w with dim_date := genDateRows ⟨2023, 1, 1⟩ ⟨2025, 12, 31⟩ }

/-- The dimension row built from one source customer in the initial load of
`load_dim_customer`: `valid_from = registration_date`,
`valid_to = '9999-12-31'`, `is_current = 1`. -/
def mkCustomerRow (key : Nat) (c : SourceCustomer) (now : String) : CustomerRow :=
  { customer_key := key
    customer_id := c.customer_id
    first_name := c.first_name
    last_name := c.last_name
    email := c.email
    phone := c.phone
    city := c.city
    state := c.state
    customer_tier := c.customer_tier
    registration_date := c.registration_date
    valid_from := c.registration_date
    valid_to := maxDateNat
    is_current := 1
    created_at := now
    updated_at := now }

/-- Assign consecutive autoincrement surrogate keys starting at `key`. -/
def customerRowsFrom (key : Nat) (now : String) :
    List SourceCustomer → List CustomerRow
  | [] => []
  | c :: cs => mkCustomerRow key c now :: customerRowsFrom (key + 1) now cs

/-- Loader `load_dim_customer`, including the count guard. -/
def load_dim_customer_wh (w : Warehouse) (src : SourceDB) (now : String) :
    Warehouse :=
  if 0 < w.dim_customer.length then w
  else
    { w with
      dim_customer := customerRowsFrom w.next_customer_key now src.customers
      next_customer_key := w.next_customer_key + src.customers.length }

/-- The `products JOIN categories` extraction of `load_dim_product`. -/
def joinedProducts (src : SourceDB) : List (SourceProduct × SourceCategory) :=
  src.products.flatMap (fun p =>
    (src.categories.filter (fun c => c.category_id == p.category_id)).map
      (fun c => (p, c)))

/-- The dimension row built from one joined product/category pair. -/
def mkProductRow (key : Nat) (pc : SourceProduct × SourceCategory) : ProductRow :=
  { product_key := key
    product_id := pc.1.product_id
    product_name := pc.1.product_name
    category_id := pc.1.category_id
    category_name := pc.2.category_name
    category_description := pc.2.description
    unit_price := pc.1.unit_price
    is_active := pc.1.is_active }

/-- Assign consecutive surrogate keys to the joined product rows. -/
def productRowsFrom (key : Nat) :
    List (SourceProduct × SourceCategory) → List ProductRow
  | [] => []
  | pc :: pcs => mkProductRow key pc :: productRowsFrom (key + 1) pcs

/-- Loader `load_dim_product`, including the count guard. -/
def load_dim_product_wh (w : Warehouse) (src : SourceDB) : Warehouse :=
  if 0 < w.dim_product.length then w
  else
    { w with
      dim_product := productRowsFrom w.next_product_key (joinedProducts src)
      next_product_key := w.next_product_key + (joinedProducts src).length }

/-- The fixed status rows written by `load_dim_order_status`. -/
def statusRows : List StatusRow :=
  [ { status_code := "PENDING", status_name := "Pending",
      status_description := "Order placed, awaiting processing", is_final_state := 0 },
    { status_code := "SHIPPED", status_name := "Shipped",
      status_description := "Order shipped to customer", is_final_state := 0 },
    { status_code := "COMPLETED", status_name := "Completed",
      status_description := "Order delivered and completed", is_final_state := 1 },
    { status_code := "CANCELLED", status_name := "Cancelled",
      status_description := "Order cancelled", is_final_state := 1 } ]

/-- Loader `load_dim_order_status`: `to_sql(..., if_exists='replace')` rewrites the
table unconditionally. -/
def load_dim_order_status_wh (w : Warehouse) : Warehouse :=
  { w with dim_order_status := statusRows }

/-- The fixed payment-method rows written by `load_dim_payment_method`. -/
def paymentMethodRows : List PaymentMethodRow :=
  [ { payment_method_code := "CC", payment_method_name := "Credit Card",
      processing_fee_pct := 29 / 10 },
    { payment_method_code := "DC", payment_method_name := "Debit Card",
      processing_fee_pct := 15 / 10 },
    { payment_method_code := "PP", payment_method_name := "PayPal",
      processing_fee_pct := 35 / 10 },
    { payment_method_code := "AP", payment_method_name := "Apple Pay",
      processing_fee_pct := 25 / 10 } ]

/-- Loader `load_dim_payment_method`: replace-mode load of fixed rows. -/
def load_dim_payment_method_wh (w : Warehouse) : Warehouse :=
  { w with dim_payment_method := paymentMethodRows }

/-- The `CASE order_id % 4` payment-method inference of `load_fact_sales`. -/
def paymentMethodOf (order_id : Nat) : String :=
  if order_id % 4 == 0 then "Credit Card"
  else if order_id % 4 == 1 then "Debit Card"
  else if order_id % 4 == 2 then "PayPal"
  else "Apple Pay"

/-- One denormalized record extracted by `load_fact_sales`'s source query. -/
structure SalesSource where
  order_id : Nat
  order_item_id : Nat
  order_date : Date
  customer_id : Nat
  product_id : Nat
  order_status : String
  payment_method : String
  quantity : Nat
  unit_price : Rat
  line_total : Rat
  discount_amount : Rat
  tax_amount : Rat
deriving DecidableEq, Repr

/-- The `orders JOIN order_items ... WHERE order_status = 'Completed'`
extraction, with the derived payment method, the constant discount and the
8% tax. -/
def extractSales (src : SourceDB) : List SalesSource :=
  src.orders.flatMap (fun o =>
    if o.order_status == "Completed" then
      (src.order_items.filter (fun oi => oi.order_id == o.order_id)).map
        (fun oi =>
          { order_id := o.order_id
            order_item_id := oi.order_item_id
            order_date := o.order_date
            customer_id := o.customer_id
            product_id := oi.product_id
            order_status := o.order_status
            payment_method := paymentMethodOf o.order_id
            quantity := oi.quantity
            unit_price := oi.unit_price
            line_total := oi.line_total
            discount_amount := 0
            tax_amount := oi.line_total * (8 / 100) })
    else [])

/-- The hard-coded `status_mapping` dictionary (`dict.map` gives `NaN`,
i.e. `none`, on a missing key). -/
def statusMapping (s : String) : Option Nat :=
  if s == "Completed" then some 3
  else if s == "Pending" then some 1
  else if s == "Shipped" then some 2
  else if s == "Cancelled" then some 4
  else none

/-- The hard-coded `payment_mapping` dictionary. -/
def paymentMapping (s : String) : Option Nat :=
  if s == "Credit Card" then some 1
  else if s == "Debit Card" then some 2
  else if s == "PayPal" then some 3
  else if s == "Apple Pay" then some 4
  else none

/-- The customer keys a `how='left'` merge with the `is_current = 1` slice of
`dim_customer` attaches to one source row: one `none` when there is no
match, otherwise one key per matching dimension row. -/
def customerKeyMatches (dim : List CustomerRow) (cid : Nat) : List (Option Nat) :=
  match (dim.filter (fun r => r.is_current == 1)).filter
      (fun r => r.customer_id == cid) with
  | [] => [none]
  | ms => ms.map (fun r => some r.customer_key)

/-- The product keys a `how='left'` merge with `dim_product` attaches. -/
def productKeyMatches (dimp : List ProductRow) (pid : Nat) : List (Option Nat) :=
  match dimp.filter (fun p => p.product_id == pid) with
  | [] => [none]
  | ms => ms.map (fun p => some p.product_key)

/-- The fact rows produced from one extracted source record: the customer
merge, then the product merge, then the column selection, with
`net_revenue = line_total - discount_amount + tax_amount`. -/
def factRowsOf (w : Warehouse) (e : SalesSource) : List FactRow :=
  (customerKeyMatches w.dim_customer e.customer_id).flatMap (fun ck =>
    (productKeyMatches w.dim_product e.product_id).map (fun pk =>
      { date_key := dateKeyOf e.order_date
        customer_key := ck
        product_key := pk
        status_key := statusMapping e.order_status
        payment_method_key := paymentMapping e.payment_method
        order_id := e.order_id
        order_item_id := e.order_item_id
        quantity := e.quantity
        unit_price := e.unit_price
        line_total := e.line_total
        discount_amount := e.discount_amount
        tax_amount := e.tax_amount
        net_revenue := e.line_total - e.discount_amount + e.tax_amount }))

/-- Loader `load_fact_sales`, including the count guard. -/
def load_fact_sales_wh (w : Warehouse) (src : SourceDB) : Warehouse :=
  if 0 < w.fact_sales.length then w
  else { w with fact_sales := (extractSales src).flatMap (factRowsOf w) }

/-- Modelled from the spec: `data_modeling.sql`, executed by
`create_warehouse_schema`, is not among the sources; only its effects are
described ("Dimension tables created ... Indexes created ... Views
created").  The loaders' count guards presuppose that re-running the DDL
preserves existing table contents, so the schema step is modelled as the
identity on the data. -/
def create_warehouse_schema_wh (w : Warehouse) : Warehouse := w

/-- The load sequence of `run_full_etl` (the `verify_warehouse` step only reads). -/
def run_full_etl_wh (w : Warehouse) (src : SourceDB) (now : String) : Warehouse :=
  load_fact_sales_wh
    (load_dim_payment_method_wh
      (load_dim_order_status_wh
        (load_dim_product_wh
          (load_dim_customer_wh
            (load_dim_date_wh (create_warehouse_schema_wh w)) src now) src)))
    src

/-!
Section: Top-level error handling (`create_data_warehouse.py` control flow)

Exceptions are modelled with `Except`: a Python call either returns or
raises.
-/

/-- A raised Python exception. -/
inductive PyError where
  | fileNotFound (msg : String)
  | other (msg : String)
deriving DecidableEq, Repr

/-- Constructor `DataWarehouseETL.__init__`: raises `FileNotFoundError` when the source
database file does not exist (lines 25-28), otherwise connects. -/
def dataWarehouseETL_init (source_db_exists : Bool) : Except PyError Unit :=
  if source_db_exists then .ok ()
  else .error (.fileNotFound "Source database not found: sales_analytics.db")

/-- Method `run_full_etl` wraps its whole body in `try ... except Exception`
(lines 339-363): whatever the body does, the method returns normally. -/
def run_full_etl_result (body : Except PyError Unit) : Except PyError Unit :=
  match body with
  | .ok _ => .ok ()
  | .error _ => .ok ()

/-- The script's `main()` on the default choice `'1'` path: construct the
ETL object (outside any `try`), run the full ETL, then run the sample
queries (also outside any `try`).  `etl_body` and `sample_queries` stand
for the outcomes of the wrapped ETL body and of `run_sample_queries`. -/
def create_data_warehouse_main (source_db_exists : Bool)
    (etl_body : Except PyError Unit) (sample_queries : Except PyError Unit) :
    Except PyError Unit := do
  dataWarehouseETL_init source_db_exists
  run_full_etl_result etl_body
  sample_queries

/-!
Section: Interval invariants for the Type-2 dimension
-/

/-- Shape of one natural key's version history, in table order: consecutive
versions chain (`valid_to` is the day before the successor's `valid_from`),
every version's interval `[valid_from, valid_to]` is nonempty, all versions
but the last are closed (`is_current = 0`), and the last one is current with
the sentinel `valid_to`. -/
def HistShape (rows : List CustomerRow) : Prop :=
  rows.Chain' (fun r r' => r.valid_to + 1 = r'.valid_from) ∧
  (∀ r ∈ rows, r.valid_from ≤ r.valid_to) ∧
  (∀ r ∈ rows.dropLast, r.is_current = 0) ∧
  (∀ r, rows.getLast? = some r → r.is_current = 1 ∧ r.valid_to = maxDateNat)

/-- Global dimension invariant: distinct surrogate keys and a well-shaped
history for every natural key. -/
def ShapeInv (w : Warehouse) : Prop :=
  KeysOk w ∧ ∀ cid, HistShape (histOf w cid)

/-- Day `d` lies in some version's closed validity interval. -/
def Covers (rows : List CustomerRow) (d : Nat) : Prop :=
  ∃ r ∈ rows, r.valid_from ≤ d ∧ d ≤ r.valid_to

/-- States reachable by `update_customer_tier` calls whose effective date is
strictly after the `valid_from` of every existing version of the updated key
(updates arrive in chronological order) and no later than the sentinel. -/
inductive MonoReach : Warehouse → Warehouse → Prop where
  | refl (w : Warehouse) : MonoReach w w
  | step (w w' : Warehouse) (cid : Nat) (t : String) (eff : Nat) (now : String) :
      MonoReach w w' →
      (∀ r ∈ histOf w' cid, r.valid_from < eff) →
      eff ≤ maxDateNat →
      MonoReach w (update_customer_tier w' cid t eff now)

/-!
Section: The concrete example of the spec

Customer 1 ("Alice"), tier Bronze, valid from 2024-01-01, current; the shape
`load_dim_customer` produces for a single source customer.
-/

/-- The initial dimension row of the worked example. -/
def aliceRow : CustomerRow :=
  { customer_key := 1
    customer_id := 1
    first_name := "Alice"
    last_name := "Smith"
    email := "alice@example.com"
    phone := "555-0100"
    city := "Austin"
    state := "TX"
    customer_tier := "Bronze"
    registration_date := dateToNat ⟨2024, 1, 1⟩
    valid_from := dateToNat ⟨2024, 1, 1⟩
    valid_to := maxDateNat
    is_current := 1
    created_at := "2024-01-01 00:00:00"
    updated_at := "2024-01-01 00:00:00" }

/-- The example warehouse: one current dimension row, empty fact table. -/
def exampleWarehouse : Warehouse :=
  { dim_date := []
    dim_customer := [aliceRow]
    dim_product := []
    dim_order_status := []
    dim_payment_method := []
    fact_sales := []
    next_customer_key := 2
    next_product_key := 1 }

/-- The example warehouse after
`update_customer_tier(1, 'Silver', '2024-06-15')`. -/
def exampleAfter : Warehouse :=
  update_customer_tier exampleWarehouse 1 "Silver" (dateToNat ⟨2024, 6, 15⟩)
    "2024-06-15 12:00:00"

/-!
Section: Helper lemmas
-/

theorem isCurrentFor_eq_true {cid : Nat} {r : CustomerRow} :
    isCurrentFor cid r = true ↔ r.customer_id = cid ∧ r.is_current = 1 := by
  simp [isCurrentFor]

theorem closeRow_customer_key (eff : Nat) (now : String) (r : CustomerRow) :
    (closeRow eff now r).customer_key = r.customer_key := rfl

theorem map_close_eq_self {l : List CustomerRow} {k eff : Nat} {now : String}
    (h : ∀ r ∈ l, r.customer_key ≠ k) :
    l.map (fun r => if r.customer_key == k then closeRow eff now r else r) = l := by
  conv_rhs => rw [← List.map_id l]
  apply List.map_congr_left
  intro a ha
  simp [h a ha]

/-- The dimension list splits around the unique current row, and
`update_customer_tier` rewrites exactly that row and appends the new one. -/
theorem update_dim_decomp (w : Warehouse) (cid : Nat) (t : String) (eff : Nat)
    (now : String) (cur : CustomerRow)
    (hk : KeysOk w)
    (hfind : w.dim_customer.find? (isCurrentFor cid) = some cur)
    (hne : cur.customer_tier ≠ t) :
    ∃ l₁ l₂,
      w.dim_customer = l₁ ++ cur :: l₂ ∧
      (∀ r ∈ l₁, r.customer_key ≠ cur.customer_key) ∧
      (∀ r ∈ l₂, r.customer_key ≠ cur.customer_key) ∧
      (update_customer_tier w cid t eff now).dim_customer =
        l₁ ++ closeRow eff now cur ::
          (l₂ ++ [newTierRow w.next_customer_key cur t eff now]) ∧
      (update_customer_tier w cid t eff now).next_customer_key =
        w.next_customer_key + 1 := by
  have hmem : cur ∈ w.dim_customer := List.mem_of_find?_eq_some hfind
  obtain ⟨l₁, l₂, hsplit⟩ := List.append_of_mem hmem
  have hpw := hk.1
  rw [hsplit] at hpw
  have h₁ : ∀ r ∈ l₁, r.customer_key ≠ cur.customer_key := by
    intro r hr
    have := (List.pairwise_append.mp hpw).2.2 r hr cur (List.mem_cons_self _ _)
    exact this
  have h₂ : ∀ r ∈ l₂, r.customer_key ≠ cur.customer_key := by
    intro r hr
    have := (List.pairwise_cons.mp (List.pairwise_append.mp hpw).2.1).1 r hr
    exact fun h => this h.symm
  refine ⟨l₁, l₂, hsplit, h₁, h₂, ?_, ?_⟩
  · show (update_customer_tier w cid t eff now).dim_customer = _
    unfold update_customer_tier
    rw [hfind]
    have hbne : (cur.customer_tier == t) = false := by
      simp [hne]
    simp only [hbne, Bool.false_eq_true, if_false]
    rw [hsplit, List.map_append, List.map_cons]
    rw [map_close_eq_self h₁, map_close_eq_self h₂]
    simp
  · unfold update_customer_tier
    rw [hfind]
    have hbne : (cur.customer_tier == t) = false := by simp [hne]
    simp [hbne]

/-- Operation `update_customer_tier` touches only `dim_customer` and its counter. -/
theorem update_frame (w : Warehouse) (cid : Nat) (t : String) (eff : Nat)
    (now : String) :
    (update_customer_tier w cid t eff now).fact_sales = w.fact_sales ∧
    (update_customer_tier w cid t eff now).dim_date = w.dim_date ∧
    (update_customer_tier w cid t eff now).dim_product = w.dim_product ∧
    (update_customer_tier w cid t eff now).dim_order_status = w.dim_order_status ∧
    (update_customer_tier w cid t eff now).dim_payment_method = w.dim_payment_method ∧
    (update_customer_tier w cid t eff now).next_product_key = w.next_product_key := by
  unfold update_customer_tier
  cases h : w.dim_customer.find? (isCurrentFor cid) with
  | none => exact ⟨rfl, rfl, rfl, rfl, rfl, rfl⟩
  | some cur =>
    by_cases ht : cur.customer_tier == t
    · simp [ht]
    · simp [ht]

/-- The surrogate key list of `dim_customer` only ever grows at the end. -/
theorem update_keys_extend (w : Warehouse) (cid : Nat) (t : String) (eff : Nat)
    (now : String) :
    ∃ tail,
      (update_customer_tier w cid t eff now).dim_customer.map
          (fun r => r.customer_key) =
        w.dim_customer.map (fun r => r.customer_key) ++ tail := by
  unfold update_customer_tier
  cases h : w.dim_customer.find? (isCurrentFor cid) with
  | none => exact ⟨[], by simp⟩
  | some cur =>
    by_cases ht : cur.customer_tier == t
    · simp [ht]
    · refine ⟨[w.next_customer_key], ?_⟩
      simp only [ht, Bool.false_eq_true, if_false]
      rw [List.map_append, List.map_map]
      congr 1
      apply List.map_congr_left
      intro a _
      by_cases hk : a.customer_key = cur.customer_key <;> simp [hk, closeRow]

/-!
Section: C1: the SCD Type-2 close-and-insert behaviour
-/

/-- C1: when a current row exists for the natural key and the new tier
differs, `update_customer_tier` rewrites exactly the current row — setting
`valid_to` to the day before the effective date and `is_current` to 0 — and
appends exactly one new row copying first_name, last_name, email, phone,
city, state and registration_date, with the new tier,
`valid_from` = effective date, `valid_to` = the sentinel `'9999-12-31'` and
`is_current` = 1; all other rows are untouched.  (Instantiated on the
spec's Bronze→Silver example by the witness below.) -/
theorem scd_update_closes_and_inserts (w : Warehouse) (cid : Nat) (t : String)
    (eff : Nat) (now : String) (cur : CustomerRow)
    (hk : KeysOk w)
    (hfind : w.dim_customer.find? (isCurrentFor cid) = some cur)
    (hne : cur.customer_tier ≠ t) :
    ∃ l₁ l₂,
      w.dim_customer = l₁ ++ cur :: l₂ ∧
      (update_customer_tier w cid t eff now).dim_customer =
        l₁ ++ { cur with valid_to := eff - 1, is_current := 0, updated_at := now } ::
          (l₂ ++ [{ customer_key := w.next_customer_key
                    customer_id := cur.customer_id
                    first_name := cur.first_name
                    last_name := cur.last_name
                    email := cur.email
                    phone := cur.phone
                    city := cur.city
                    state := cur.state
                    customer_tier := t
                    registration_date := cur.registration_date
                    valid_from := eff
                    valid_to := maxDateNat
                    is_current := 1
                    created_at := now
                    updated_at := now }]) := by
  obtain ⟨l₁, l₂, hsplit, _, _, hdim, _⟩ :=
    update_dim_decomp w cid t eff now cur hk hfind hne
  exact ⟨l₁, l₂, hsplit, hdim⟩

/-- C1 witness: the Bronze→Silver example with effective date 2024-06-15
closes the old row at 2024-06-14 and inserts the current Silver row. -/
theorem scd_update_closes_and_inserts_witness :
    (KeysOk exampleWarehouse ∧
     exampleWarehouse.dim_customer.find? (isCurrentFor 1) = some aliceRow ∧
     aliceRow.customer_tier ≠ "Silver") ∧
    ∃ l₁ l₂,
      exampleWarehouse.dim_customer = l₁ ++ aliceRow :: l₂ ∧
      (update_customer_tier exampleWarehouse 1 "Silver"
          (dateToNat ⟨2024, 6, 15⟩) "2024-06-15 12:00:00").dim_customer =
        l₁ ++ { aliceRow with
                  valid_to := dateToNat ⟨2024, 6, 15⟩ - 1, is_current := 0,
                  updated_at := "2024-06-15 12:00:00" } ::
          (l₂ ++ [{ customer_key := exampleWarehouse.next_customer_key
                    customer_id := aliceRow.customer_id
                    first_name := aliceRow.first_name
                    last_name := aliceRow.last_name
                    email := aliceRow.email
                    phone := aliceRow.phone
                    city := aliceRow.city
                    state := aliceRow.state
                    customer_tier := "Silver"
                    registration_date := aliceRow.registration_date
                    valid_from := dateToNat ⟨2024, 6, 15⟩
                    valid_to := maxDateNat
                    is_current := 1
                    created_at := "2024-06-15 12:00:00"
                    updated_at := "2024-06-15 12:00:00" }]) :=
  ⟨⟨⟨List.pairwise_singleton _ _, by decide⟩, by decide, by decide⟩,
    scd_update_closes_and_inserts exampleWarehouse 1 "Silver"
      (dateToNat ⟨2024, 6, 15⟩) "2024-06-15 12:00:00" aliceRow
      ⟨List.pairwise_singleton _ _, by decide⟩ (by decide) (by decide)⟩

/-!
Section: C4, C5: no-op cases
-/

/-- C4: updating a customer's tier to its current value is a no-op — the
whole warehouse state (in particular `dim_customer`) is unchanged. -/
theorem scd_update_same_tier_noop (w : Warehouse) (cid : Nat) (t : String)
    (eff : Nat) (now : String) (cur : CustomerRow)
    (hfind : w.dim_customer.find? (isCurrentFor cid) = some cur)
    (ht : cur.customer_tier = t) :
    update_customer_tier w cid t eff now = w := by
  unfold update_customer_tier
  rw [hfind]
  simp [ht]

/-- C4 witness: re-assigning Bronze to customer 1 changes nothing. -/
theorem scd_update_same_tier_noop_witness :
    (exampleWarehouse.dim_customer.find? (isCurrentFor 1) = some aliceRow ∧
     aliceRow.customer_tier = "Bronze") ∧
    update_customer_tier exampleWarehouse 1 "Bronze"
      (dateToNat ⟨2024, 6, 15⟩) "ts" = exampleWarehouse :=
  ⟨⟨by decide, by decide⟩,
    scd_update_same_tier_noop exampleWarehouse 1 "Bronze"
      (dateToNat ⟨2024, 6, 15⟩) "ts" aliceRow (by decide) (by decide)⟩

/-- C5: when no current row exists for the customer id, the update reports
the failure and mutates nothing — the warehouse state is unchanged. -/
theorem scd_update_missing_key_noop (w : Warehouse) (cid : Nat) (t : String)
    (eff : Nat) (now : String)
    (h : ∀ r ∈ w.dim_customer, ¬(r.customer_id = cid ∧ r.is_current = 1)) :
    update_customer_tier w cid t eff now = w := by
  have hnone : w.dim_customer.find? (isCurrentFor cid) = none := by
    rw [List.find?_eq_none]
    intro r hr
    rw [isCurrentFor_eq_true]
    exact h r hr
  unfold update_customer_tier
  rw [hnone]

/-- C5 witness: customer 99 has no row, so the update is the identity. -/
theorem scd_update_missing_key_noop_witness :
    (∀ r ∈ exampleWarehouse.dim_customer,
      ¬(r.customer_id = 99 ∧ r.is_current = 1)) ∧
    update_customer_tier exampleWarehouse 99 "Gold"
      (dateToNat ⟨2024, 6, 15⟩) "ts" = exampleWarehouse :=
  ⟨by decide,
    scd_update_missing_key_noop exampleWarehouse 99 "Gold"
      (dateToNat ⟨2024, 6, 15⟩) "ts" (by decide)⟩

/-!
Section: C6: atomicity of close + insert
-/

/-- C6: the close and insert steps commit as one unit — the committed state
is either the untouched original or the fully updated warehouse, and if the
key had a current row before, it still has one after, whether or not the
insert succeeded.  A committed state with the row closed but no replacement
inserted is not reachable. -/
theorem scd_update_atomic (w : Warehouse) (cid : Nat) (t : String) (eff : Nat)
    (now : String) (ok : Bool)
    (hcur : ∃ r ∈ w.dim_customer, r.customer_id = cid ∧ r.is_current = 1) :
    (update_customer_tier_committed w cid t eff now ok = w ∨
     update_customer_tier_committed w cid t eff now ok =
       update_customer_tier w cid t eff now) ∧
    ∃ r ∈ (update_customer_tier_committed w cid t eff now ok).dim_customer,
      r.customer_id = cid ∧ r.is_current = 1 := by
  cases hfind : w.dim_customer.find? (isCurrentFor cid) with
  | none =>
    have hval : update_customer_tier_committed w cid t eff now ok = w := by
      simp [update_customer_tier_committed, hfind]
    rw [hval]
    exact ⟨Or.inl rfl, hcur⟩
  | some cur =>
    by_cases ht : (cur.customer_tier == t) = true
    · have hval : update_customer_tier_committed w cid t eff now ok = w := by
        simp [update_customer_tier_committed, hfind, ht]
      rw [hval]
      exact ⟨Or.inl rfl, hcur⟩
    · cases ok with
      | false =>
        have hval : update_customer_tier_committed w cid t eff now false = w := by
          simp [update_customer_tier_committed, hfind, ht]
        rw [hval]
        exact ⟨Or.inl rfl, hcur⟩
      | true =>
        have hval : update_customer_tier_committed w cid t eff now true =
            update_customer_tier w cid t eff now := by
          simp [update_customer_tier_committed, hfind, ht]
        rw [hval]
        refine ⟨Or.inr rfl, ?_⟩
        have hcid : cur.customer_id = cid ∧ cur.is_current = 1 :=
          isCurrentFor_eq_true.mp (List.find?_some hfind)
        have hdim : (update_customer_tier w cid t eff now).dim_customer =
            (w.dim_customer.map (fun r =>
              if r.customer_key == cur.customer_key then closeRow eff now r
              else r)) ++ [newTierRow w.next_customer_key cur t eff now] := by
          unfold update_customer_tier
          rw [hfind]
          simp [ht]
        rw [hdim]
        refine ⟨newTierRow w.next_customer_key cur t eff now, ?_, ?_, rfl⟩
        · exact List.mem_append_right _ (List.mem_singleton.mpr rfl)
        · exact hcid.1

/-- C6 witness: with a failing insert the committed state is the original
warehouse and customer 1 still has a current row. -/
theorem scd_update_atomic_witness :
    (∃ r ∈ exampleWarehouse.dim_customer,
      r.customer_id = 1 ∧ r.is_current = 1) ∧
    ((update_customer_tier_committed exampleWarehouse 1 "Silver"
        (dateToNat ⟨2024, 6, 15⟩) "ts" false = exampleWarehouse ∨
      update_customer_tier_committed exampleWarehouse 1 "Silver"
        (dateToNat ⟨2024, 6, 15⟩) "ts" false =
        update_customer_tier exampleWarehouse 1 "Silver"
          (dateToNat ⟨2024, 6, 15⟩) "ts") ∧
     ∃ r ∈ (update_customer_tier_committed exampleWarehouse 1 "Silver"
        (dateToNat ⟨2024, 6, 15⟩) "ts" false).dim_customer,
      r.customer_id = 1 ∧ r.is_current = 1) :=
  ⟨by decide,
    scd_update_atomic exampleWarehouse 1 "Silver" (dateToNat ⟨2024, 6, 15⟩)
      "ts" false (by decide)⟩

/-!
Section: C7: the fact table is a frame of dimension updates
-/

/-- C7: any sequence of `update_customer_tier` calls leaves `fact_sales`
exactly as it was (contents, hence counts and stored surrogate keys), and
the surrogate keys of the pre-existing `dim_customer` rows survive in place
— the key column is only ever extended at the end. -/
theorem facts_immutable_under_dim_updates (w : Warehouse) (ops : List TierUpdate) :
    (applyUpdates w ops).fact_sales = w.fact_sales ∧
    ∃ tail,
      (applyUpdates w ops).dim_customer.map (fun r => r.customer_key) =
        w.dim_customer.map (fun r => r.customer_key) ++ tail := by
  induction ops generalizing w with
  | nil => exact ⟨rfl, [], by simp [applyUpdates]⟩
  | cons op ops ih =>
    have hstep : applyUpdates w (op :: ops) =
        applyUpdates (update_customer_tier w op.customer_id op.new_tier
          op.eff op.now) ops := rfl
    obtain ⟨hfact, tail, hkeys⟩ :=
      ih (update_customer_tier w op.customer_id op.new_tier op.eff op.now)
    obtain ⟨tail₀, hkeys₀⟩ :=
      update_keys_extend w op.customer_id op.new_tier op.eff op.now
    refine ⟨?_, tail₀ ++ tail, ?_⟩
    · rw [hstep, hfact,
        (update_frame w op.customer_id op.new_tier op.eff op.now).1]
    · rw [hstep, hkeys, hkeys₀, List.append_assoc]

/-!
Section: C2: exactly one current row per natural key
-/

/-- Either the call is one of the no-op branches or it rewrites the found
row and appends the new one. -/
theorem update_cases (w : Warehouse) (cid : Nat) (t : String) (eff : Nat)
    (now : String) :
    update_customer_tier w cid t eff now = w ∨
    ∃ cur, w.dim_customer.find? (isCurrentFor cid) = some cur ∧
      cur.customer_tier ≠ t := by
  cases hfind : w.dim_customer.find? (isCurrentFor cid) with
  | none => exact Or.inl (by simp [update_customer_tier, hfind])
  | some cur =>
    by_cases ht : (cur.customer_tier == t) = true
    · exact Or.inl (by simp [update_customer_tier, hfind, ht])
    · exact Or.inr ⟨cur, rfl, by simpa using ht⟩

theorem close_if_key (k eff : Nat) (now : String) (r : CustomerRow) :
    (if r.customer_key == k then closeRow eff now r else r).customer_key =
      r.customer_key := by
  by_cases h : (r.customer_key == k) = true <;> simp [h, closeRow]

/-- Operation `update_customer_tier` preserves distinctness and boundedness of the
surrogate keys. -/
theorem keysOk_step (w : Warehouse) (cid : Nat) (t : String) (eff : Nat)
    (now : String) (hk : KeysOk w) :
    KeysOk (update_customer_tier w cid t eff now) := by
  rcases update_cases w cid t eff now with heq | ⟨cur, hfind, hne⟩
  · rw [heq]; exact hk
  obtain ⟨l₁, l₂, hsplit, h₁, h₂, hdim, hnext⟩ :=
    update_dim_decomp w cid t eff now cur hk hfind hne
  have hmem₁ : ∀ r ∈ l₁, r ∈ w.dim_customer := by
    intro r hr; rw [hsplit]; exact List.mem_append_left _ hr
  have hmem₂ : ∀ r ∈ l₂, r ∈ w.dim_customer := by
    intro r hr; rw [hsplit]
    exact List.mem_append_right _ (List.mem_cons_of_mem _ hr)
  have hmemc : cur ∈ w.dim_customer := List.mem_of_find?_eq_some hfind
  have hdim' : (update_customer_tier w cid t eff now).dim_customer =
      (l₁ ++ closeRow eff now cur :: l₂) ++
        [newTierRow w.next_customer_key cur t eff now] := by
    rw [hdim]; simp
  have hclosed_keys : ∀ r ∈ l₁ ++ closeRow eff now cur :: l₂,
      r.customer_key < w.next_customer_key := by
    intro r hr
    rcases List.mem_append.mp hr with hr1 | hr2
    · exact hk.2 r (hmem₁ r hr1)
    rcases List.mem_cons.mp hr2 with hr3 | hr4
    · rw [hr3, closeRow_customer_key]; exact hk.2 cur hmemc
    · exact hk.2 r (hmem₂ r hr4)
  have hpw : (l₁ ++ closeRow eff now cur :: l₂).Pairwise
      (fun r r' => r.customer_key ≠ r'.customer_key) := by
    have hpw0 := hk.1
    rw [hsplit] at hpw0
    have hmapped : l₁ ++ closeRow eff now cur :: l₂ =
        (l₁ ++ cur :: l₂).map (fun r =>
          if r.customer_key == cur.customer_key then closeRow eff now r
          else r) := by
      rw [List.map_append, List.map_cons, map_close_eq_self h₁,
        map_close_eq_self h₂]
      simp
    rw [hmapped, List.pairwise_map]
    refine hpw0.imp_of_mem ?_
    intro a b _ _ hab
    show (if a.customer_key == cur.customer_key then closeRow eff now a
        else a).customer_key ≠
      (if b.customer_key == cur.customer_key then closeRow eff now b
        else b).customer_key
    rw [close_if_key, close_if_key]
    exact hab
  constructor
  · rw [hdim', List.pairwise_append]
    refine ⟨hpw, List.pairwise_singleton _ _, ?_⟩
    intro r hr r' hr'
    rw [List.mem_singleton.mp hr']
    exact fun h => absurd h (Nat.ne_of_lt (hclosed_keys r hr))
  · intro r hr
    rw [hdim'] at hr
    rw [hnext]
    rcases List.mem_append.mp hr with hr1 | hr2
    · exact Nat.lt_succ_of_lt (hclosed_keys r hr1)
    · rw [List.mem_singleton.mp hr2]
      exact Nat.lt_succ_self _

/-- The number of current rows of every natural key is unchanged by a
tier update: the closed row leaves the count and the inserted row re-enters
it (or the call was a no-op). -/
theorem currentRows_length_step (w : Warehouse) (cid : Nat) (t : String)
    (eff : Nat) (now : String) (c : Nat) (hk : KeysOk w) :
    (currentRows (update_customer_tier w cid t eff now) c).length =
      (currentRows w c).length := by
  rcases update_cases w cid t eff now with heq | ⟨cur, hfind, hne⟩
  · rw [heq]
  · obtain ⟨l₁, l₂, hsplit, _, _, hdim, _⟩ :=
      update_dim_decomp w cid t eff now cur hk hfind hne
    have hcid := isCurrentFor_eq_true.mp (List.find?_some hfind)
    have hpclose : isCurrentFor c (closeRow eff now cur) = false := by
      simp [isCurrentFor, closeRow]
    have hpnew : isCurrentFor c (newTierRow w.next_customer_key cur t eff now) =
        isCurrentFor c cur := by
      simp [isCurrentFor, newTierRow, hcid.2]
    unfold currentRows
    rw [hdim, hsplit]
    simp only [List.filter_append, List.filter_cons, hpclose, hpnew,
      List.filter_nil, Bool.false_eq_true, if_false, List.length_append]
    by_cases hc : isCurrentFor c cur = true <;> simp [hc]

/-- C2: starting from a warehouse with well-formed surrogate keys, at most
one current row per natural key, and exactly one current row for key `cid`,
any sequence of `update_customer_tier` operations preserves both: every key
still has at most one current row and `cid` has exactly one. -/
theorem one_current_row_invariant (w : Warehouse) (ops : List TierUpdate)
    (cid : Nat)
    (hk : KeysOk w)
    (hone : (currentRows w cid).length = 1)
    (hle : ∀ c, (currentRows w c).length ≤ 1) :
    (currentRows (applyUpdates w ops) cid).length = 1 ∧
    ∀ c, (currentRows (applyUpdates w ops) c).length ≤ 1 := by
  induction ops generalizing w with
  | nil => exact ⟨hone, hle⟩
  | cons op ops ih =>
    have hstep : applyUpdates w (op :: ops) =
        applyUpdates (update_customer_tier w op.customer_id op.new_tier
          op.eff op.now) ops := rfl
    rw [hstep]
    refine ih _ (keysOk_step _ _ _ _ _ hk) ?_ ?_
    · rw [currentRows_length_step _ _ _ _ _ _ hk]; exact hone
    · intro c
      rw [currentRows_length_step _ _ _ _ _ _ hk]; exact hle c

/-- C2 witness: two successive tier changes on the example warehouse leave
customer 1 with exactly one current row. -/
theorem one_current_row_invariant_witness :
    (KeysOk exampleWarehouse ∧
     (currentRows exampleWarehouse 1).length = 1 ∧
     ∀ c, (currentRows exampleWarehouse c).length ≤ 1) ∧
    ((currentRows (applyUpdates exampleWarehouse
        [⟨1, "Silver", dateToNat ⟨2024, 6, 15⟩, "t1"⟩,
         ⟨1, "Gold", dateToNat ⟨2024, 9, 1⟩, "t2"⟩]) 1).length = 1 ∧
     ∀ c, (currentRows (applyUpdates exampleWarehouse
        [⟨1, "Silver", dateToNat ⟨2024, 6, 15⟩, "t1"⟩,
         ⟨1, "Gold", dateToNat ⟨2024, 9, 1⟩, "t2"⟩]) c).length ≤ 1) :=
  ⟨⟨⟨List.pairwise_singleton _ _, by decide⟩, by decide,
      fun c => List.length_filter_le _ _⟩,
    one_current_row_invariant exampleWarehouse
      [⟨1, "Silver", dateToNat ⟨2024, 6, 15⟩, "t1"⟩,
       ⟨1, "Gold", dateToNat ⟨2024, 9, 1⟩, "t2"⟩] 1
      ⟨List.pairwise_singleton _ _, by decide⟩ (by decide)
      (fun c => List.length_filter_le _ _)⟩

/-!
Section: C3: validity intervals never overlap and never leave gaps
-/

theorem histShape_nil : HistShape [] := by
  refine ⟨List.chain'_nil, ?_, ?_, ?_⟩ <;> simp

theorem histShape_singleton {r : CustomerRow} (h1 : r.is_current = 1)
    (h2 : r.valid_from ≤ r.valid_to) (h3 : r.valid_to = maxDateNat) :
    HistShape [r] := by
  refine ⟨List.chain'_singleton _, ?_, ?_, ?_⟩
  · intro x hx; rw [List.mem_singleton.mp hx]; exact h2
  · simp
  · intro x hx
    have hrx : r = x := by simpa using hx
    rw [← hrx]
    exact ⟨h1, h3⟩

/-- One monotone update step preserves the global shape invariant. -/
theorem shapeInv_step (w : Warehouse) (cid : Nat) (t : String) (eff : Nat)
    (now : String)
    (hs : ShapeInv w)
    (hmono : ∀ r ∈ histOf w cid, r.valid_from < eff)
    (hle : eff ≤ maxDateNat) :
    ShapeInv (update_customer_tier w cid t eff now) := by
  rcases update_cases w cid t eff now with heq | ⟨cur, hfind, hne⟩
  · rw [heq]; exact hs
  obtain ⟨hk, hshape⟩ := hs
  obtain ⟨l₁, l₂, hsplit, h₁, h₂, hdim, hnext⟩ :=
    update_dim_decomp w cid t eff now cur hk hfind hne
  have hcid := isCurrentFor_eq_true.mp (List.find?_some hfind)
  have hmemc : cur ∈ w.dim_customer := List.mem_of_find?_eq_some hfind
  have hcurhist : cur ∈ histOf w cid := by
    unfold histOf
    exact List.mem_filter.mpr ⟨hmemc, by simp [hcid.1]⟩
  have heff1 : 1 ≤ eff := Nat.lt_of_le_of_lt (Nat.zero_le _) (hmono cur hcurhist)
  refine ⟨keysOk_step w cid t eff now hk, ?_⟩
  intro c
  have hdimfilter : histOf (update_customer_tier w cid t eff now) c =
      (l₁.filter (fun r => r.customer_id == c)) ++
        ((closeRow eff now cur :: (l₂ ++
          [newTierRow w.next_customer_key cur t eff now])).filter
            (fun r => r.customer_id == c)) := by
    unfold histOf
    rw [hdim, List.filter_append]
  have holdfilter : histOf w c =
      (l₁.filter (fun r => r.customer_id == c)) ++
        ((cur :: l₂).filter (fun r => r.customer_id == c)) := by
    unfold histOf
    rw [hsplit, List.filter_append]
  by_cases hc : c = cid
  case neg =>
    -- other keys: the rewritten and inserted rows belong to `cid`, so the
    -- history of `c` is unchanged
    have hnotc : (cur.customer_id == c) = false := by
      simp [hcid.1]; exact fun h => hc h.symm
    have hnotclose : ((closeRow eff now cur).customer_id == c) = false := by
      simpa [closeRow] using hnotc
    have hnotnew : ((newTierRow w.next_customer_key cur t eff now).customer_id
        == c) = false := by
      simpa [newTierRow] using hnotc
    have : histOf (update_customer_tier w cid t eff now) c = histOf w c := by
      rw [hdimfilter, holdfilter]
      rw [List.filter_cons, List.filter_cons, hnotclose, hnotc]
      simp only [Bool.false_eq_true, if_false, List.filter_append,
        List.filter_cons, hnotnew, List.filter_nil]
      simp
    rw [this]
    exact hshape c
  case pos =>
    subst hc
    have hyesc : (cur.customer_id == c) = true := by simp [hcid.1]
    have hyesclose : ((closeRow eff now cur).customer_id == c) = true := by
      simpa [closeRow] using hyesc
    have hyesnew : ((newTierRow w.next_customer_key cur t eff now).customer_id
        == c) = true := by
      simpa [newTierRow] using hyesc
    set fl := l₁.filter (fun r => r.customer_id == c) with hfl
    have hold : histOf w c = fl ++ cur ::
        (l₂.filter (fun r => r.customer_id == c)) := by
      rw [holdfilter, List.filter_cons, hyesc]
      simp
    -- the current row is the last of its history, so nothing of the key
    -- follows it in the table
    have hl₂nil : l₂.filter (fun r => r.customer_id == c) = [] := by
      by_contra hne2
      obtain ⟨y, ys, hys⟩ := List.exists_cons_of_ne_nil hne2
      have hcurdrop : cur ∈ (histOf w c).dropLast := by
        rw [hold, hys, List.dropLast_append_cons]
        refine List.mem_append_right _ ?_
        rw [List.dropLast_cons₂]
        exact List.mem_cons_self _ _
      have := (hshape c).2.2.1 cur hcurdrop
      rw [hcid.2] at this
      exact absurd this (by omega)
    have holdshape := hshape c
    rw [hold, hl₂nil] at holdshape
    have hnew : histOf (update_customer_tier w c t eff now) c =
        fl ++ [closeRow eff now cur,
          newTierRow w.next_customer_key cur t eff now] := by
      rw [hdimfilter, List.filter_cons, hyesclose]
      simp only [if_true, List.filter_append, hl₂nil, List.filter_cons,
        hyesnew, List.filter_nil]
      simp
    rw [hnew]
    -- unpack the old shape over fl ++ [cur]
    obtain ⟨hch, hwf, hdrop, hlast⟩ := holdshape
    have hch' := List.chain'_append.mp (by simpa using hch)
    have hcurlast := hlast cur (by simp [List.getLast?_concat])
    have hcurvt : cur.valid_from < eff := hmono cur hcurhist
    have hregroup : fl ++ [closeRow eff now cur,
        newTierRow w.next_customer_key cur t eff now] =
      (fl ++ [closeRow eff now cur]) ++
        [newTierRow w.next_customer_key cur t eff now] := by simp
    refine ⟨?_, ?_, ?_, ?_⟩
    · -- chain: fl links to the closed row as before, and the closed row
      -- links to the inserted row at the effective date
      rw [List.chain'_append]
      refine ⟨hch'.1, ?_, ?_⟩
      · rw [List.chain'_pair]
        show (closeRow eff now cur).valid_to + 1 =
          (newTierRow w.next_customer_key cur t eff now).valid_from
        show (eff - 1) + 1 = eff
        omega
      · intro x hx y hy
        have hy' : closeRow eff now cur = y := by
          simpa using hy
        have hlink := hch'.2.2 x hx cur (by simp)
        rw [← hy']
        show x.valid_to + 1 = (closeRow eff now cur).valid_from
        exact hlink
    · intro r hr
      rcases List.mem_append.mp hr with hr1 | hr2
      · exact hwf r (List.mem_append_left _ hr1)
      · rcases List.mem_cons.mp hr2 with hr3 | hr4
        · rw [hr3]
          show cur.valid_from ≤ eff - 1
          omega
        · rw [List.mem_singleton.mp hr4]
          show eff ≤ maxDateNat
          exact hle
    · rw [hregroup, List.dropLast_concat]
      intro r hr
      rcases List.mem_append.mp hr with hr1 | hr2
      · exact hdrop r (by rw [List.dropLast_concat]; exact hr1)
      · rw [List.mem_singleton.mp hr2]
        rfl
    · intro r hr
      rw [hregroup, List.getLast?_concat] at hr
      have hrn : newTierRow w.next_customer_key cur t eff now = r :=
        Option.some_inj.mp hr
      rw [← hrn]
      exact ⟨rfl, rfl⟩

/-- The shape invariant holds in every state monotonically reachable from a
well-shaped one. -/
theorem shapeInv_monoReach (w w' : Warehouse) (hr : MonoReach w w')
    (h0 : ShapeInv w) : ShapeInv w' := by
  induction hr with
  | refl => exact h0
  | step w₂ cid t eff now hrec hmono hle ih =>
    exact shapeInv_step w₂ cid t eff now ih hmono hle

theorem chain_lt_of_mem {a : CustomerRow} {l : List CustomerRow}
    (hch : (a :: l).Chain' (fun r r' => r.valid_to + 1 = r'.valid_from))
    (hwf : ∀ r ∈ a :: l, r.valid_from ≤ r.valid_to) :
    ∀ b ∈ l, a.valid_to < b.valid_from := by
  induction l generalizing a with
  | nil => intro b hb; cases hb
  | cons x l ih =>
    intro b hb
    have hax : a.valid_to + 1 = x.valid_from := (List.chain'_cons.mp hch).1
    rcases List.mem_cons.mp hb with hb1 | hb2
    · rw [hb1]; omega
    · have hxb := ih (List.chain'_cons.mp hch).2
        (fun r hr => hwf r (List.mem_cons_of_mem _ hr)) b hb2
      have hx : x.valid_from ≤ x.valid_to := hwf x (by simp)
      omega

theorem pairwise_of_chain_wf {l : List CustomerRow}
    (hch : l.Chain' (fun r r' => r.valid_to + 1 = r'.valid_from))
    (hwf : ∀ r ∈ l, r.valid_from ≤ r.valid_to) :
    l.Pairwise (fun r r' => r.valid_to < r'.valid_from) := by
  induction l with
  | nil => exact List.Pairwise.nil
  | cons a l ih =>
    refine List.pairwise_cons.mpr ⟨chain_lt_of_mem hch hwf, ?_⟩
    rcases l with _ | ⟨x, l⟩
    · exact List.Pairwise.nil
    · exact ih (List.chain'_cons.mp hch).2
        (fun r hr => hwf r (List.mem_cons_of_mem _ hr))

theorem covers_of_chain {l : List CustomerRow}
    (hch : l.Chain' (fun r r' => r.valid_to + 1 = r'.valid_from))
    (hlast : ∀ r, l.getLast? = some r → r.valid_to = maxDateNat) :
    ∀ r0, l.head? = some r0 →
      ∀ d, r0.valid_from ≤ d → d ≤ maxDateNat → Covers l d := by
  induction l with
  | nil => intro r0 h0; cases h0
  | cons a l ih =>
    intro r0 h0 d hd1 hd2
    have ha : a = r0 := by simpa using h0
    subst ha
    by_cases hin : d ≤ a.valid_to
    · exact ⟨a, by simp, hd1, hin⟩
    rcases l with _ | ⟨b, l⟩
    · exact absurd (hlast a (by simp) ▸ hd2) hin
    · have hab : a.valid_to + 1 = b.valid_from := (List.chain'_cons.mp hch).1
      have hcov : Covers (b :: l) d := by
        refine ih (List.chain'_cons.mp hch).2 ?_ b rfl d (by omega) hd2
        intro r hr
        exact hlast r (by rw [List.getLast?_cons_cons]; exact hr)
      obtain ⟨r, hrmem, hr1, hr2⟩ := hcov
      exact ⟨r, List.mem_cons_of_mem _ hrmem, hr1, hr2⟩

/-- C3 (amended, `valid_to` read as an inclusive bound, as the code's
`BETWEEN valid_from AND valid_to` queries do): in any state monotonically
reachable from a well-shaped warehouse, the closed intervals
`[valid_from, valid_to]` of a natural key's versions are pairwise disjoint
(each version ends strictly before the next begins) and leave no gap: every
day from the first version's `valid_from` up to the sentinel is covered by
some version. -/
theorem scd_intervals_contiguous (w0 w : Warehouse) (cid : Nat)
    (h0 : ShapeInv w0) (hr : MonoReach w0 w) :
    (histOf w cid).Pairwise (fun r r' => r.valid_to < r'.valid_from) ∧
    (∀ r ∈ histOf w cid, r.valid_from ≤ r.valid_to) ∧
    ∀ r0, (histOf w cid).head? = some r0 →
      ∀ d, r0.valid_from ≤ d → d ≤ maxDateNat → Covers (histOf w cid) d := by
  obtain ⟨-, hshape⟩ := shapeInv_monoReach w0 w hr h0
  obtain ⟨hch, hwf, -, hlast⟩ := hshape cid
  exact ⟨pairwise_of_chain_wf hch hwf, hwf,
    covers_of_chain hch (fun r hr => (hlast r hr).2)⟩

/-- The shape invariant of the one-customer example warehouse. -/
theorem exampleWarehouse_shapeInv : ShapeInv exampleWarehouse := by
  refine ⟨⟨List.pairwise_singleton _ _, by decide⟩, ?_⟩
  intro c
  show HistShape ([aliceRow].filter (fun r => r.customer_id == c))
  cases hc : (aliceRow.customer_id == c) with
  | true =>
    rw [List.filter_singleton, hc]
    exact histShape_singleton rfl (by decide) rfl
  | false =>
    rw [List.filter_singleton, hc]
    exact histShape_nil

/-- The Bronze→Silver step satisfies the monotone-reachability conditions. -/
theorem exampleAfter_monoReach : MonoReach exampleWarehouse exampleAfter :=
  MonoReach.step exampleWarehouse exampleWarehouse 1 "Silver"
    (dateToNat ⟨2024, 6, 15⟩) "2024-06-15 12:00:00"
    (MonoReach.refl exampleWarehouse) (by decide) (by decide)

/-- C3 witness: the worked example's two versions are disjoint and cover
every day from 2024-01-01 to the sentinel. -/
theorem scd_intervals_contiguous_witness :
    ShapeInv exampleWarehouse ∧
    ((histOf exampleAfter 1).Pairwise (fun r r' => r.valid_to < r'.valid_from) ∧
     (∀ r ∈ histOf exampleAfter 1, r.valid_from ≤ r.valid_to) ∧
     ∀ r0, (histOf exampleAfter 1).head? = some r0 →
       ∀ d, r0.valid_from ≤ d → d ≤ maxDateNat → Covers (histOf exampleAfter 1) d) :=
  ⟨exampleWarehouse_shapeInv,
    scd_intervals_contiguous exampleWarehouse exampleAfter 1
      exampleWarehouse_shapeInv exampleAfter_monoReach⟩

/-- C3 counterexample to the claim as stated (exclusive upper bounds): after
the example update, the day 2024-06-14 lies at or after the first version's
start and strictly before the last version's `valid_to`, yet no version's
half-open interval `[valid_from, valid_to)` contains it — under the spec's
exclusive-bound data model the code's close-at-minus-one-day leaves a
one-day gap. -/
theorem scd_intervals_exclusive_gap :
    (∃ r ∈ histOf exampleAfter 1, r.valid_from ≤ dateToNat ⟨2024, 6, 14⟩) ∧
    (∃ r ∈ histOf exampleAfter 1, dateToNat ⟨2024, 6, 14⟩ < r.valid_to) ∧
    ¬ ∃ r ∈ histOf exampleAfter 1,
        r.valid_from ≤ dateToNat ⟨2024, 6, 14⟩ ∧
        dateToNat ⟨2024, 6, 14⟩ < r.valid_to := by
  decide

/-!
Section: C8: fact load resolves keys by current-key lookup and never drops rows
-/

theorem find?_eq_head?_filter (p : α → Bool) (l : List α) :
    l.find? p = (l.filter p).head? := by
  induction l with
  | nil => rfl
  | cons a l ih =>
    rw [List.find?_cons, List.filter_cons]
    cases h : p a with
    | false => exact ih
    | true => rfl

/-- Under the at-most-one-current invariant, the left merge attaches exactly
the `find?` lookup result to each source row. -/
theorem customerKeyMatches_eq_find? (dim : List CustomerRow) (cid : Nat)
    (h : (dim.filter (isCurrentFor cid)).length ≤ 1) :
    customerKeyMatches dim cid =
      [(dim.find? (isCurrentFor cid)).map (fun r => r.customer_key)] := by
  unfold customerKeyMatches
  have hff : (dim.filter (fun r => r.is_current == 1)).filter
      (fun r => r.customer_id == cid) = dim.filter (isCurrentFor cid) := by
    rw [List.filter_filter]
    apply List.filter_congr
    intro r _
    simp [isCurrentFor, Bool.and_comm]
  rw [hff, find?_eq_head?_filter]
  cases hl : dim.filter (isCurrentFor cid) with
  | nil => rfl
  | cons r rs =>
    have hrs : rs = [] := by
      rw [hl] at h
      simpa using List.length_eq_zero.mp (by simpa using h)
    rw [hrs]
    rfl

theorem productKeyMatches_ne_nil (dimp : List ProductRow) (pid : Nat) :
    productKeyMatches dimp pid ≠ [] := by
  unfold productKeyMatches
  cases h : dimp.filter (fun p => p.product_id == pid) with
  | nil => simp
  | cons r rs => simp

/-- C8: when the fact table is empty (so the guard admits the load) and the
dimension has at most one current row per key, every extracted source event
produces a loaded fact row whose customer surrogate key is the result of
the current-key (`is_current = 1`) lookup on `customer_id`; in particular an
event with no matching dimension row is still loaded, with a `NULL`
(`none`) customer key. -/
theorem fact_load_uses_current_lookup_and_keeps_unmatched (w : Warehouse)
    (src : SourceDB) (e : SalesSource)
    (hempty : w.fact_sales = [])
    (hone : ∀ cid, (w.dim_customer.filter (isCurrentFor cid)).length ≤ 1)
    (he : e ∈ extractSales src) :
    ∃ f ∈ (load_fact_sales_wh w src).fact_sales,
      f.order_id = e.order_id ∧ f.order_item_id = e.order_item_id ∧
      f.customer_key =
        (w.dim_customer.find? (isCurrentFor e.customer_id)).map
          (fun r => r.customer_key) := by
  have hload : (load_fact_sales_wh w src).fact_sales =
      (extractSales src).flatMap (factRowsOf w) := by
    unfold load_fact_sales_wh
    rw [if_neg (by simp [hempty])]
  rw [hload]
  obtain ⟨pk, hpkmem⟩ :=
    List.exists_mem_of_ne_nil _
      (productKeyMatches_ne_nil w.dim_product e.product_id)
  refine ⟨{ date_key := dateKeyOf e.order_date
            customer_key := (w.dim_customer.find?
              (isCurrentFor e.customer_id)).map (fun r => r.customer_key)
            product_key := pk
            status_key := statusMapping e.order_status
            payment_method_key := paymentMapping e.payment_method
            order_id := e.order_id
            order_item_id := e.order_item_id
            quantity := e.quantity
            unit_price := e.unit_price
            line_total := e.line_total
            discount_amount := e.discount_amount
            tax_amount := e.tax_amount
            net_revenue := e.line_total - e.discount_amount + e.tax_amount },
    ?_, rfl, rfl, rfl⟩
  apply List.mem_flatMap.mpr
  refine ⟨e, he, ?_⟩
  unfold factRowsOf
  rw [customerKeyMatches_eq_find? w.dim_customer e.customer_id
    (hone e.customer_id)]
  simp only [List.flatMap_cons, List.flatMap_nil, List.append_nil]
  exact List.mem_map.mpr ⟨pk, hpkmem, rfl⟩

/-- A one-event source whose customer (42) has no dimension row. -/
def exampleSource : SourceDB :=
  { customers := []
    products := []
    categories := []
    orders := [{ order_id := 4, customer_id := 42,
                 order_date := ⟨2024, 3, 10⟩, order_status := "Completed" }]
    order_items := [{ order_item_id := 7, order_id := 4, product_id := 99,
                      quantity := 1, unit_price := 10, line_total := 10 }] }

/-- The record `extractSales` produces for `exampleSource`'s single event. -/
def exampleEvent : SalesSource :=
  { order_id := 4
    order_item_id := 7
    order_date := ⟨2024, 3, 10⟩
    customer_id := 42
    product_id := 99
    order_status := "Completed"
    payment_method := "Credit Card"
    quantity := 1
    unit_price := 10
    line_total := 10
    discount_amount := 0
    tax_amount := 10 * (8 / 100) }

/-- C8 witness: customer 42 has no current dimension row, yet the event is
loaded — with a `none` customer key, since the lookup finds nothing. -/
theorem fact_load_keeps_unmatched_witness :
    (exampleWarehouse.fact_sales = [] ∧
     exampleEvent ∈ extractSales exampleSource) ∧
    ∃ f ∈ (load_fact_sales_wh exampleWarehouse exampleSource).fact_sales,
      f.order_id = exampleEvent.order_id ∧
      f.order_item_id = exampleEvent.order_item_id ∧
      f.customer_key =
        (exampleWarehouse.dim_customer.find?
          (isCurrentFor exampleEvent.customer_id)).map
            (fun r => r.customer_key) :=
  ⟨⟨rfl, List.mem_singleton.mpr rfl⟩,
    fact_load_uses_current_lookup_and_keeps_unmatched exampleWarehouse
      exampleSource exampleEvent rfl
      (fun _ => List.length_filter_le _ _) (List.mem_singleton.mpr rfl)⟩

/-!
Section: C9: top-level error handling
-/

/-- C9 counterexample: with the source database missing, the
`FileNotFoundError` raised in `DataWarehouseETL.__init__` propagates
uncaught out of `main()` — the script's entry point does not return
normally, contradicting the claim that every error is caught at top
level. -/
theorem etl_main_uncaught_init_error :
    create_data_warehouse_main false (.ok ()) (.ok ()) =
      .error (.fileNotFound "Source database not found: sales_analytics.db") ∧
    create_data_warehouse_main false (.ok ()) (.ok ()) ≠ .ok () :=
  ⟨rfl, fun h => Except.noConfusion h⟩

/-- C9 (amended): errors raised inside `run_full_etl`'s body are caught by
its `try/except` and the method returns normally, and when construction
succeeds `main`'s outcome is exactly that of the unprotected
`run_sample_queries` tail — but an exception during `DataWarehouseETL`
construction (missing source database) escapes `main` uncaught. -/
theorem etl_run_full_etl_catches (body q : Except PyError Unit) :
    run_full_etl_result body = .ok () ∧
    create_data_warehouse_main true body q = q := by
  cases body <;> exact ⟨rfl, rfl⟩

/-!
Section: C10: running the full ETL twice leaves the warehouse unchanged
-/

theorem genDateRowsAux_succ_ne_nil (n : Nat) (d : Date) :
    genDateRowsAux (n + 1) d ≠ [] := by
  simp [genDateRowsAux]

theorem genDateRows_default_ne_nil :
    genDateRows ⟨2023, 1, 1⟩ ⟨2025, 12, 31⟩ ≠ [] := by
  unfold genDateRows
  rw [show dateToNat ⟨2025, 12, 31⟩ + 1 - dateToNat ⟨2023, 1, 1⟩ = 1095 + 1
    from by decide]
  exact genDateRowsAux_succ_ne_nil 1095 _

theorem customerRowsFrom_eq_nil {k : Nat} {now : String}
    {cs : List SourceCustomer} (h : customerRowsFrom k now cs = []) :
    cs = [] := by
  cases cs with
  | nil => rfl
  | cons c cs => exact absurd h (by simp [customerRowsFrom])

theorem productRowsFrom_eq_nil {k : Nat}
    {pcs : List (SourceProduct × SourceCategory)}
    (h : productRowsFrom k pcs = []) : pcs = [] := by
  cases pcs with
  | nil => rfl
  | cons pc pcs => exact absurd h (by simp [productRowsFrom])

/- Skip lemmas: a count-guarded loader is the identity once its table is
non-empty. -/

theorem load_dim_date_skip {w : Warehouse} (h : w.dim_date ≠ []) :
    load_dim_date_wh w = w := by
  unfold load_dim_date_wh
  rw [if_pos (List.length_pos.mpr h)]

theorem load_dim_customer_skip {w : Warehouse} {src : SourceDB} {now : String}
    (h : w.dim_customer ≠ []) : load_dim_customer_wh w src now = w := by
  unfold load_dim_customer_wh
  rw [if_pos (List.length_pos.mpr h)]

theorem load_dim_product_skip {w : Warehouse} {src : SourceDB}
    (h : w.dim_product ≠ []) : load_dim_product_wh w src = w := by
  unfold load_dim_product_wh
  rw [if_pos (List.length_pos.mpr h)]

theorem load_fact_sales_skip {w : Warehouse} {src : SourceDB}
    (h : w.fact_sales ≠ []) : load_fact_sales_wh w src = w := by
  unfold load_fact_sales_wh
  rw [if_pos (List.length_pos.mpr h)]

/- Frame lemmas: each loader writes only its own table (and counter). -/

theorem ldd_frame (w : Warehouse) :
    (load_dim_date_wh w).dim_customer = w.dim_customer ∧
    (load_dim_date_wh w).dim_product = w.dim_product ∧
    (load_dim_date_wh w).dim_order_status = w.dim_order_status ∧
    (load_dim_date_wh w).dim_payment_method = w.dim_payment_method ∧
    (load_dim_date_wh w).fact_sales = w.fact_sales ∧
    (load_dim_date_wh w).next_customer_key = w.next_customer_key ∧
    (load_dim_date_wh w).next_product_key = w.next_product_key := by
  unfold load_dim_date_wh
  split <;> exact ⟨rfl, rfl, rfl, rfl, rfl, rfl, rfl⟩

theorem ldc_frame (w : Warehouse) (src : SourceDB) (now : String) :
    (load_dim_customer_wh w src now).dim_date = w.dim_date ∧
    (load_dim_customer_wh w src now).dim_product = w.dim_product ∧
    (load_dim_customer_wh w src now).dim_order_status = w.dim_order_status ∧
    (load_dim_customer_wh w src now).dim_payment_method = w.dim_payment_method ∧
    (load_dim_customer_wh w src now).fact_sales = w.fact_sales ∧
    (load_dim_customer_wh w src now).next_product_key = w.next_product_key := by
  unfold load_dim_customer_wh
  split <;> exact ⟨rfl, rfl, rfl, rfl, rfl, rfl⟩

theorem ldp_frame (w : Warehouse) (src : SourceDB) :
    (load_dim_product_wh w src).dim_date = w.dim_date ∧
    (load_dim_product_wh w src).dim_customer = w.dim_customer ∧
    (load_dim_product_wh w src).dim_order_status = w.dim_order_status ∧
    (load_dim_product_wh w src).dim_payment_method = w.dim_payment_method ∧
    (load_dim_product_wh w src).fact_sales = w.fact_sales ∧
    (load_dim_product_wh w src).next_customer_key = w.next_customer_key := by
  unfold load_dim_product_wh
  split <;> exact ⟨rfl, rfl, rfl, rfl, rfl, rfl⟩

theorem lds_frame (w : Warehouse) :
    (load_dim_order_status_wh w).dim_date = w.dim_date ∧
    (load_dim_order_status_wh w).dim_customer = w.dim_customer ∧
    (load_dim_order_status_wh w).dim_product = w.dim_product ∧
    (load_dim_order_status_wh w).dim_payment_method = w.dim_payment_method ∧
    (load_dim_order_status_wh w).fact_sales = w.fact_sales ∧
    (load_dim_order_status_wh w).next_customer_key = w.next_customer_key ∧
    (load_dim_order_status_wh w).next_product_key = w.next_product_key :=
  ⟨rfl, rfl, rfl, rfl, rfl, rfl, rfl⟩

theorem ldpm_frame (w : Warehouse) :
    (load_dim_payment_method_wh w).dim_date = w.dim_date ∧
    (load_dim_payment_method_wh w).dim_customer = w.dim_customer ∧
    (load_dim_payment_method_wh w).dim_product = w.dim_product ∧
    (load_dim_payment_method_wh w).dim_order_status = w.dim_order_status ∧
    (load_dim_payment_method_wh w).fact_sales = w.fact_sales ∧
    (load_dim_payment_method_wh w).next_customer_key = w.next_customer_key ∧
    (load_dim_payment_method_wh w).next_product_key = w.next_product_key :=
  ⟨rfl, rfl, rfl, rfl, rfl, rfl, rfl⟩

theorem ldf_frame (w : Warehouse) (src : SourceDB) :
    (load_fact_sales_wh w src).dim_date = w.dim_date ∧
    (load_fact_sales_wh w src).dim_customer = w.dim_customer ∧
    (load_fact_sales_wh w src).dim_product = w.dim_product ∧
    (load_fact_sales_wh w src).dim_order_status = w.dim_order_status ∧
    (load_fact_sales_wh w src).dim_payment_method = w.dim_payment_method ∧
    (load_fact_sales_wh w src).next_customer_key = w.next_customer_key ∧
    (load_fact_sales_wh w src).next_product_key = w.next_product_key := by
  unfold load_fact_sales_wh
  split <;> exact ⟨rfl, rfl, rfl, rfl, rfl, rfl, rfl⟩

theorem ldd_result_ne_nil (w : Warehouse) :
    (load_dim_date_wh w).dim_date ≠ [] := by
  unfold load_dim_date_wh
  split
  · next hgt => exact List.length_pos.mp hgt
  · exact genDateRows_default_ne_nil

/-- Transformation `factRowsOf` reads only the customer and product dimensions. -/
theorem factRowsOf_congr {w w' : Warehouse}
    (hc : w.dim_customer = w'.dim_customer)
    (hp : w.dim_product = w'.dim_product) :
    factRowsOf w = factRowsOf w' := by
  funext e
  unfold factRowsOf
  rw [hc, hp]

/-- C10: `run_full_etl` is idempotent on the warehouse state: a second run
(even at a different wall-clock time) leaves every table and counter exactly
as the first run left them — the count-guarded loaders skip their non-empty
tables and the replace-mode loaders rewrite the same fixed rows. -/
theorem run_full_etl_idempotent (w : Warehouse) (src : SourceDB)
    (now now' : String) :
    run_full_etl_wh (run_full_etl_wh w src now) src now' =
      run_full_etl_wh w src now := by
  unfold run_full_etl_wh create_warehouse_schema_wh
  set z1 := load_dim_date_wh w with hz1
  set z2 := load_dim_customer_wh z1 src now with hz2
  set z3 := load_dim_product_wh z2 src with hz3
  set z4 := load_dim_order_status_wh z3 with hz4
  set z5 := load_dim_payment_method_wh z4 with hz5
  set y := load_fact_sales_wh z5 src with hy
  -- field chains from the first run down to y
  have hyd : y.dim_date = z1.dim_date := by
    rw [hy, (ldf_frame z5 src).1, hz5, (ldpm_frame z4).1, hz4,
      (lds_frame z3).1, hz3, (ldp_frame z2 src).1, hz2,
      (ldc_frame z1 src now).1]
  have hyc : y.dim_customer = z2.dim_customer := by
    rw [hy, (ldf_frame z5 src).2.1, hz5, (ldpm_frame z4).2.1, hz4,
      (lds_frame z3).2.1, hz3, (ldp_frame z2 src).2.1]
  have hyp : y.dim_product = z3.dim_product := by
    rw [hy, (ldf_frame z5 src).2.2.1, hz5, (ldpm_frame z4).2.2.1, hz4,
      (lds_frame z3).2.2.1]
  have hys : y.dim_order_status = statusRows := by
    rw [hy, (ldf_frame z5 src).2.2.2.1, hz5, (ldpm_frame z4).2.2.2.1, hz4]
    rfl
  have hypm : y.dim_payment_method = paymentMethodRows := by
    rw [hy, (ldf_frame z5 src).2.2.2.2.1, hz5]
    rfl
  have hyc5 : y.dim_customer = z5.dim_customer := by
    rw [hy, (ldf_frame z5 src).2.1]
  have hyp5 : y.dim_product = z5.dim_product := by
    rw [hy, (ldf_frame z5 src).2.2.1]
  -- stage 1 of the second run: dim_date is non-empty, skip
  have h1 : load_dim_date_wh y = y :=
    load_dim_date_skip (by rw [hyd]; exact ldd_result_ne_nil w)
  rw [h1]
  -- stage 2: dim_customer either non-empty (skip) or still empty because the
  -- source has no customers, in which case reloading adds nothing
  have h2 : load_dim_customer_wh y src now' = y := by
    by_cases hne : y.dim_customer = []
    · have hz2e : (load_dim_customer_wh z1 src now).dim_customer = [] := by
        rw [← hz2, ← hyc]; exact hne
      have hsrc : src.customers = [] := by
        unfold load_dim_customer_wh at hz2e
        split at hz2e
        · next hgt =>
          exact absurd (List.length_pos.mp hgt) (by simp [hz2e])
        · exact customerRowsFrom_eq_nil hz2e
      unfold load_dim_customer_wh
      rw [if_neg (by simp [hne]), hsrc]
      show { y with
               dim_customer := customerRowsFrom y.next_customer_key now' [],
               next_customer_key := y.next_customer_key + List.length [] } = y
      rw [show customerRowsFrom y.next_customer_key now' [] = y.dim_customer
        from by rw [hne]; rfl]
      rw [show y.next_customer_key + List.length [] = y.next_customer_key
        from by simp]
    · exact load_dim_customer_skip hne
  rw [h2]
  -- stage 3: same reasoning for dim_product
  have h3 : load_dim_product_wh y src = y := by
    by_cases hne : y.dim_product = []
    · have hz3e : (load_dim_product_wh z2 src).dim_product = [] := by
        rw [← hz3, ← hyp]; exact hne
      have hsrc : joinedProducts src = [] := by
        unfold load_dim_product_wh at hz3e
        split at hz3e
        · next hgt =>
          exact absurd (List.length_pos.mp hgt) (by simp [hz3e])
        · exact productRowsFrom_eq_nil hz3e
      unfold load_dim_product_wh
      rw [if_neg (by simp [hne]), hsrc]
      show { y with
               dim_product := productRowsFrom y.next_product_key [],
               next_product_key := y.next_product_key + List.length [] } = y
      rw [show productRowsFrom y.next_product_key [] = y.dim_product
        from by rw [hne]; rfl]
      rw [show y.next_product_key + List.length [] = y.next_product_key
        from by simp]
    · exact load_dim_product_skip hne
  rw [h3]
  -- stages 4 and 5: the replace loads rewrite the rows they already wrote
  have h4 : load_dim_order_status_wh y = y := by
    unfold load_dim_order_status_wh
    rw [← hys]
  rw [h4]
  have h5 : load_dim_payment_method_wh y = y := by
    unfold load_dim_payment_method_wh
    rw [← hypm]
  rw [h5]
  -- stage 6: fact table either non-empty (skip) or the recomputation over
  -- the unchanged dimensions is the same empty load
  by_cases hne : y.fact_sales = []
  · have hz5e : z5.fact_sales = [] := by
      have := (ldf_frame z5 src).2.2.2.2.2  -- counters; fact field needs its own
      by_contra hz5ne
      have : load_fact_sales_wh z5 src = z5 := load_fact_sales_skip hz5ne
      rw [hy, this] at hne
      exact hz5ne hne
    have hyfact : y.fact_sales = (extractSales src).flatMap (factRowsOf z5) := by
      rw [hy]
      unfold load_fact_sales_wh
      rw [if_neg (by simp [hz5e])]
    unfold load_fact_sales_wh
    rw [if_neg (by simp [hne])]
    rw [show (extractSales src).flatMap (factRowsOf y) = y.fact_sales from by
      rw [factRowsOf_congr hyc5 hyp5, ← hyfact]]
  · exact load_fact_sales_skip hne

